import Mathlib

/-!
Shallow embedding of the Coinbase mappers from src/mappers/coinbase.ts.

Modelling conventions for JavaScript primitives:
- A JS number that may be NaN (the result of Number(someString)) is
  embedded as Option Rat, with none standing for NaN. The JS comparisons
  NaN < 0 and NaN >= 0 are both false, which the helper functions below
  reproduce.
- A JS Date object is embedded as DateObj: its valueOf result is an
  Option Int (none standing for NaN, the Invalid Date case), together
  with the optional microsecond-remainder field the mappers attach.
- A timestamp string of the feed is embedded as TimeStr, carrying the
  two values the source ever derives from it: the Date parse of the
  string (epoch milliseconds, none when the string does not parse) and
  the microsecond remainder extracted by the utility from ../handy.
-/

/-- Result of JS Number(string): a rational, or none standing for NaN. -/
abbrev JsNumber := Option ℚ

/-- JS Number.isNaN on an embedded number. -/
def jsIsNaN : JsNumber → Bool
  | none => true
  | some _ => false

/-- The JS comparison x < 0 on an embedded number: false on NaN. -/
def jsNumLtZero : JsNumber → Bool
  | none => false
  | some q => decide (q < 0)

/-- Order-book side tag as used by the exchange feed. -/
inductive Side where
  | buy
  | sell
deriving DecidableEq, BEq, Repr

/-- Embedding of a feed timestamp string: the Date parse of the string
(epoch milliseconds; none when the string is not a parsable date) and the
microsecond remainder the handy utility extracts from the same string. -/
structure TimeStr where
  epochMs : Option Int
  μs : Nat
deriving DecidableEq, Repr

/-- Embedding of a JS Date value as the mappers use it: the valueOf
result (none standing for NaN, i.e. an Invalid Date) plus the optional
microsecond-remainder field attached by assignment in the source. -/
structure DateObj where
  epochMs : Option Int
  μs : Option Nat
deriving DecidableEq, Repr

/-- The expression new Date(timeString): parses the string, no
microsecond field attached yet. -/
def newDate (t : TimeStr) : DateObj :=
  { epochMs := t.epochMs, μs := none }

/-- Modelled from the spec: parseμs from ../handy (not under src/)
extracts the sub-millisecond fractional-second component, a microsecond
remainder in 0..999, out of an ISO-8601-like timestamp string. The
embedding carries every time string together with that parse result, so
the function projects it. -/
def parseμs (t : TimeStr) : Nat :=
  t.μs

/-- The assignment timestamp.μs = n from the source. -/
def setμs (d : DateObj) (n : Nat) : DateObj :=
  { d with μs := some n }

/-- The JS test timestamp.valueOf() < 0: false when valueOf is NaN. -/
def valueOfLtZero (d : DateObj) : Bool :=
  match d.epochMs with
  | none => false
  | some v => decide (v < 0)

/-- The JS test timestamp.valueOf() >= 0 (non-negative valueOf): false
when valueOf is NaN. -/
def valueOfNonNeg (d : DateObj) : Bool :=
  match d.epochMs with
  | none => false
  | some v => decide (0 ≤ v)

/-- Modelled from the spec: the symbol normalization of ../handy (not
under src/) uppercases symbols. ASCII uppercase of one character. -/
def upperChar (c : Char) : Char :=
  if 97 ≤ c.toNat ∧ c.toNat ≤ 122 then Char.ofNat (c.toNat - 32) else c

/-- Modelled from the spec: uppercasing of one symbol string. -/
def upperCaseString (s : String) : String :=
  ⟨s.data.map upperChar⟩

/-- Modelled from the spec: upperCaseSymbols from ../handy (not under
src/) uppercases each symbol of the list when one is given and keeps the
absent list absent. -/
def upperCaseSymbols : Option (List String) → Option (List String)
  | none => none
  | some symbols => some (symbols.map upperCaseString)

/-- One subscription filter descriptor: a channel name and an optional,
case-normalized list of symbols. -/
structure FilterDescriptor where
  channel : String
  symbols : Option (List String)
deriving DecidableEq, Repr

/-- Embedding of the CoinbaseTrade message shape. String-encoded numeric
fields are carried as their Number(.) parse, the time string as TimeStr,
and the open index-signature fields as an association list. -/
structure CoinbaseTrade where
  trade_id : Int
  time : TimeStr
  product_id : String
  size : JsNumber
  price : JsNumber
  side : Side
  extra : List (String × String)
deriving DecidableEq, Repr

/-- Result of pruneObject(message, CoinbaseTradeExcluded): the raw trade
message with the keys type, trade_id, product_id, size, price and side
removed, which leaves the time field and the open extension fields. -/
structure PrunedCoinbaseTrade where
  time : TimeStr
  extra : List (String × String)
deriving DecidableEq, Repr

/-- Embedding of pruneObject from src/unnamed/part_000 at its single use
site: copies the object and deletes the excluded keys listed in
CoinbaseTradeExcluded. -/
def pruneObject (message : CoinbaseTrade) : PrunedCoinbaseTrade :=
  { time := message.time, extra := message.extra }

/-- Normalized Trade event from ../types as the trade mapper builds it. -/
structure Trade where
  symbol : String
  exchange : String
  id : String
  price : JsNumber
  amount : JsNumber
  side : Side
  timestamp : DateObj
  localTimestamp : DateObj
  exchangeSpecific : PrunedCoinbaseTrade
deriving DecidableEq, Repr

/-- getFilters of the trade mapper. -/
def coinbaseTradesMapper.getFilters (symbols : Option (List String)) : List FilterDescriptor :=
  let symbols := upperCaseSymbols symbols
  [{ channel := "match", symbols := symbols }]

/-- map of the trade mapper: yields exactly one Trade; the side field is
flipped because the exchange side field records the maker order side. -/
def coinbaseTradesMapper.map (message : CoinbaseTrade) (localTimestamp : DateObj) : List Trade :=
  let timestamp := setμs (newDate message.time) (parseμs message.time)
  [{ symbol := message.product_id
     exchange := "coinbase"
     id := toString message.trade_id
     price := message.price
     amount := message.size
     side := if message.side = Side.sell then Side.buy else Side.sell
     timestamp := timestamp
     localTimestamp := localTimestamp
     exchangeSpecific := pruneObject message }]

/-- A raw snapshot book level [priceString, amountString], embedded as
the pair of Number(.) parses of its two entries. -/
abbrev CoinbaseSnapshotBookLevel := JsNumber × JsNumber

/-- A raw update book level [sideTag, priceString, amountString],
embedded with the two strings as their Number(.) parses. -/
abbrev CoinbaseUpdateBookLevel := Side × JsNumber × JsNumber

/-- Normalized book price level. -/
structure BookPriceLevel where
  price : JsNumber
  amount : JsNumber
deriving DecidableEq, Repr

/-- mapUpdateBookLevel from the source: level[1] is the price, level[2]
the amount. -/
def mapUpdateBookLevel (level : CoinbaseUpdateBookLevel) : BookPriceLevel :=
  { price := level.2.1, amount := level.2.2 }

/-- mapSnapshotBookLevel from the source: level[0] is the price,
level[1] the amount. -/
def mapSnapshotBookLevel (level : CoinbaseSnapshotBookLevel) : BookPriceLevel :=
  { price := level.1, amount := level.2 }

/-- validAmountsOnly from the source: rejects a level whose amount is
NaN or negative. -/
def validAmountsOnly (level : BookPriceLevel) : Bool :=
  if jsIsNaN level.amount then false
  else if jsNumLtZero level.amount then false
  else true

/-- Normalized BookChange event. -/
structure BookChange where
  symbol : String
  exchange : String
  isSnapshot : Bool
  bids : List BookPriceLevel
  asks : List BookPriceLevel
  timestamp : DateObj
  localTimestamp : DateObj
deriving DecidableEq, Repr

/-- The two message shapes the book-change mapper handles. The snapshot
time field is optional; the update time field is required. -/
inductive CoinbaseL2Message where
  | snapshot (product_id : String) (bids : List CoinbaseSnapshotBookLevel)
      (asks : List CoinbaseSnapshotBookLevel) (time : Option TimeStr)
  | l2update (product_id : String) (time : TimeStr)
      (changes : List CoinbaseUpdateBookLevel)
deriving DecidableEq, Repr

/-- The per-symbol last-valid-timestamp cache, a JS Map from symbol to
Date, embedded as an association list in insertion order. -/
abbrev SymbolTimestampMap := List (String × DateObj)

/-- JS Map.get: first binding of the key, none when absent. -/
def mapGet : SymbolTimestampMap → String → Option DateObj
  | [], _ => none
  | (k, v) :: rest, key => if k = key then some v else mapGet rest key

/-- JS Map.set: replaces the binding in place when the key is present,
appends it otherwise. -/
def mapSet : SymbolTimestampMap → String → DateObj → SymbolTimestampMap
  | [], key, v => [(key, v)]
  | (k, w) :: rest, key, v =>
      if k = key then (key, v) :: rest else (k, w) :: mapSet rest key v

/-- getFilters of the book-change mapper. -/
def CoinbaseBookChangMapper.getFilters (symbols : Option (List String)) : List FilterDescriptor :=
  let symbols := upperCaseSymbols symbols
  [{ channel := "snapshot", symbols := symbols },
   { channel := "l2update", symbols := symbols }]

/-- map of the book-change mapper. The mutable per-symbol cache field
_symbolLastTimestampMap is threaded explicitly: the function takes the
cache before the call and returns the yielded events together with the
cache after the call. In the update branch the source either returns
early (no event), reuses the previous valid timestamp without touching
the cache, or attaches the microsecond remainder and stores the
timestamp; the intermediate Option value below records which of the
yielding cases applies together with the cache it leaves behind. -/
def CoinbaseBookChangMapper.map (cache : SymbolTimestampMap)
    (message : CoinbaseL2Message) (localTimestamp : DateObj) :
    List BookChange × SymbolTimestampMap :=
  match message with
  | .snapshot product_id bids asks time =>
    let timestamp :=
      match time with
      | some t =>
        let d := newDate t
        if valueOfLtZero d then localTimestamp else setμs d (parseμs t)
      | none => localTimestamp
    ([{ symbol := product_id
        exchange := "coinbase"
        isSnapshot := true
        bids := (bids.map mapSnapshotBookLevel).filter validAmountsOnly
        asks := (asks.map mapSnapshotBookLevel).filter validAmountsOnly
        timestamp := timestamp
        localTimestamp := localTimestamp }], cache)
  | .l2update product_id time changes =>
    let d := newDate time
    let outcome : Option (DateObj × SymbolTimestampMap) :=
      if valueOfLtZero d then
        match mapGet cache product_id with
        | none => none
        | some previousValidTimestamp => some (previousValidTimestamp, cache)
      else
        let timestamp := setμs d (parseμs time)
        some (timestamp, mapSet cache product_id timestamp)
    match outcome with
    | none => ([], cache)
    | some (timestamp, cacheAfter) =>
      ([{ symbol := product_id
          exchange := "coinbase"
          isSnapshot := false
          bids := (changes.filter (fun c => c.1 == Side.buy)).map mapUpdateBookLevel
          asks := (changes.filter (fun c => c.1 == Side.sell)).map mapUpdateBookLevel
          timestamp := timestamp
          localTimestamp := localTimestamp }], cacheAfter)

/-- Runs one book-change mapper instance over a sequence of messages,
each with its local timestamp, threading the per-symbol cache; returns
the final cache. -/
def runBookChange (cache : SymbolTimestampMap) :
    List (CoinbaseL2Message × DateObj) → SymbolTimestampMap
  | [] => cache
  | (message, localTimestamp) :: rest =>
      runBookChange (CoinbaseBookChangMapper.map cache message localTimestamp).2 rest

/-- Embedding of the CoinbaseTicker message shape: optional time string,
optional string-encoded best bid and ask fields carried as their
Number(.) parses when present. -/
structure CoinbaseTicker where
  product_id : String
  time : Option TimeStr
  best_ask_size : Option JsNumber
  best_ask : Option JsNumber
  best_bid : Option JsNumber
  best_bid_size : Option JsNumber
deriving DecidableEq, Repr

/-- Normalized BookTicker event. -/
structure BookTicker where
  symbol : String
  exchange : String
  askAmount : Option JsNumber
  askPrice : Option JsNumber
  bidPrice : Option JsNumber
  bidAmount : Option JsNumber
  timestamp : DateObj
  localTimestamp : DateObj
deriving DecidableEq, Repr

/-- getFilters of the book-ticker mapper. -/
def coinbaseBookTickerMapper.getFilters (symbols : Option (List String)) : List FilterDescriptor :=
  let symbols := upperCaseSymbols symbols
  [{ channel := "ticker", symbols := symbols }]

/-- map of the book-ticker mapper. The source guard reads
message.time === undefined OR timestamp.valueOf() < 0, where the
timestamp is new Date(message.time); matching on the optional time field
first gives the same result, since with an absent time field the guard
is true and localTimestamp is used. -/
def coinbaseBookTickerMapper.map (message : CoinbaseTicker) (localTimestamp : DateObj) :
    List BookTicker :=
  let timestamp :=
    match message.time with
    | none => localTimestamp
    | some t =>
      let d := newDate t
      if valueOfLtZero d then localTimestamp else setμs d (parseμs t)
  [{ symbol := message.product_id
     exchange := "coinbase"
     askAmount := match message.best_ask_size with
       | some v => some v
       | none => none
     askPrice := match message.best_ask with
       | some v => some v
       | none => none
     bidPrice := match message.best_bid with
       | some v => some v
       | none => none
     bidAmount := match message.best_bid_size with
       | some v => some v
       | none => none
     timestamp := timestamp
     localTimestamp := localTimestamp }]

/-- Definition following the words of the spec, to compare with the
source book-ticker mapper: when the message has no time field, or the
parsed time has a negative epoch value, the timestamp falls back to
localTimestamp wholesale; otherwise it is the parsed exchange time with
the microsecond remainder attached. -/
def specTickerTimestamp (time : Option TimeStr) (localTimestamp : DateObj) : DateObj :=
  match time with
  | none => localTimestamp
  | some t =>
    match t.epochMs with
    | some v => if v < 0 then localTimestamp else { epochMs := some v, μs := some t.μs }
    | none => { epochMs := none, μs := some t.μs }

/-- Invariant on the per-symbol cache: no stored timestamp has a
negative epoch value, i.e. every stored timestamp passed the source
check timestamp.valueOf() < 0 with result false. -/
def cacheNeverNegative (cache : SymbolTimestampMap) : Prop :=
  ∀ k d, mapGet cache k = some d → valueOfLtZero d = false

theorem mapGet_mapSet (cache : SymbolTimestampMap) (k : String) (v : DateObj) (key : String) :
    mapGet (mapSet cache k v) key = if k = key then some v else mapGet cache key := by
  induction cache with
  | nil =>
    by_cases h : k = key <;> simp [mapSet, mapGet, h]
  | cons hd tl ih =>
    obtain ⟨k0, w⟩ := hd
    by_cases h0 : k0 = k
    · subst h0
      by_cases h : k0 = key <;> simp [mapSet, mapGet, h]
    · by_cases h : k0 = key
      · subst h
        have hk : ¬ (k = k0) := fun hh => h0 hh.symm
        simp [mapSet, mapGet, h0, hk]
      · simp [mapSet, mapGet, h0, h, ih]

/-- C1: for an incremental book-update message whose time field parses
to a negative epoch value, when the per-symbol cache holds an entry for
the message symbol, map yields exactly one BookChange whose timestamp
(microsecond remainder included) equals that cached timestamp, the cache
after the call equals the cache before, and in particular the entry for
that symbol is unchanged. -/
theorem C1_l2update_negative_time_reuses_cached_timestamp
    (cache : SymbolTimestampMap) (product_id : String) (time : TimeStr)
    (changes : List CoinbaseUpdateBookLevel) (localTimestamp : DateObj)
    (v : Int) (hv : time.epochMs = some v) (hneg : v < 0)
    (d : DateObj) (hd : mapGet cache product_id = some d) :
    (CoinbaseBookChangMapper.map cache (.l2update product_id time changes) localTimestamp).1.map
        BookChange.timestamp = [d] ∧
    (CoinbaseBookChangMapper.map cache (.l2update product_id time changes) localTimestamp).2 = cache ∧
    mapGet (CoinbaseBookChangMapper.map cache (.l2update product_id time changes) localTimestamp).2
        product_id = some d := by
  simp [CoinbaseBookChangMapper.map, valueOfLtZero, newDate, hv, hneg, hd]

/-- Witness for C1 at a concrete message and cache. -/
theorem C1_witness :
    (CoinbaseBookChangMapper.map [("BTC-USD", ⟨some 1704067200123, some 456⟩)]
        (.l2update "BTC-USD" ⟨some (-62135596800000), 0⟩
          [(Side.buy, some 50000, some (3 / 2 : ℚ))])
        ⟨some 1700000000000, none⟩).1.map BookChange.timestamp
      = [⟨some 1704067200123, some 456⟩] ∧
    (CoinbaseBookChangMapper.map [("BTC-USD", ⟨some 1704067200123, some 456⟩)]
        (.l2update "BTC-USD" ⟨some (-62135596800000), 0⟩
          [(Side.buy, some 50000, some (3 / 2 : ℚ))])
        ⟨some 1700000000000, none⟩).2 = [("BTC-USD", ⟨some 1704067200123, some 456⟩)] ∧
    mapGet (CoinbaseBookChangMapper.map [("BTC-USD", ⟨some 1704067200123, some 456⟩)]
        (.l2update "BTC-USD" ⟨some (-62135596800000), 0⟩
          [(Side.buy, some 50000, some (3 / 2 : ℚ))])
        ⟨some 1700000000000, none⟩).2 "BTC-USD" = some ⟨some 1704067200123, some 456⟩ :=
  C1_l2update_negative_time_reuses_cached_timestamp
    [("BTC-USD", ⟨some 1704067200123, some 456⟩)] "BTC-USD"
    ⟨some (-62135596800000), 0⟩ [(Side.buy, some 50000, some (3 / 2 : ℚ))]
    ⟨some 1700000000000, none⟩ (-62135596800000) rfl (by decide)
    ⟨some 1704067200123, some 456⟩ (by decide)

/-- C2: for an incremental book-update message whose time field parses
to a negative epoch value, when the per-symbol cache holds no entry for
the message symbol, map yields no event and leaves the cache unchanged. -/
theorem C2_l2update_negative_time_cache_miss_suppressed
    (cache : SymbolTimestampMap) (product_id : String) (time : TimeStr)
    (changes : List CoinbaseUpdateBookLevel) (localTimestamp : DateObj)
    (v : Int) (hv : time.epochMs = some v) (hneg : v < 0)
    (hd : mapGet cache product_id = none) :
    CoinbaseBookChangMapper.map cache (.l2update product_id time changes) localTimestamp
      = ([], cache) := by
  simp [CoinbaseBookChangMapper.map, valueOfLtZero, newDate, hv, hneg, hd]

/-- Witness for C2 at a concrete message and the empty cache. -/
theorem C2_witness :
    CoinbaseBookChangMapper.map []
        (.l2update "BTC-USD" ⟨some (-62135596800000), 0⟩
          [(Side.buy, some 50000, some (3 / 2 : ℚ))])
        ⟨some 1700000000000, none⟩
      = ([], []) :=
  C2_l2update_negative_time_cache_miss_suppressed [] "BTC-USD"
    ⟨some (-62135596800000), 0⟩ [(Side.buy, some 50000, some (3 / 2 : ℚ))]
    ⟨some 1700000000000, none⟩ (-62135596800000) rfl (by decide) (by decide)

/-- C3: for an incremental book-update message whose time field parses
to a non-negative epoch value, after map the cache entry for the message
symbol equals that message's parsed timestamp with its microsecond
remainder attached, whatever entry was there before. -/
theorem C3_l2update_valid_time_stored_in_cache
    (cache : SymbolTimestampMap) (product_id : String) (time : TimeStr)
    (changes : List CoinbaseUpdateBookLevel) (localTimestamp : DateObj)
    (v : Int) (hv : time.epochMs = some v) (hnn : 0 ≤ v) :
    mapGet (CoinbaseBookChangMapper.map cache (.l2update product_id time changes) localTimestamp).2
        product_id = some { epochMs := some v, μs := some time.μs } := by
  have hlt : valueOfLtZero { epochMs := some v, μs := none } = false := by
    simp [valueOfLtZero]
    omega
  simp [CoinbaseBookChangMapper.map, newDate, hv, hlt, mapGet_mapSet, setμs, parseμs]

/-- Witness for C3 at a concrete message over a cache holding a prior
entry for the same symbol, which is overwritten. -/
theorem C3_witness :
    mapGet (CoinbaseBookChangMapper.map [("BTC-USD", ⟨some 11, some 22⟩)]
        (.l2update "BTC-USD" ⟨some 1704067200123, 456⟩
          [(Side.sell, some 50000, some 0)])
        ⟨some 1700000000000, none⟩).2 "BTC-USD"
      = some { epochMs := some 1704067200123, μs := some 456 } :=
  C3_l2update_valid_time_stored_in_cache [("BTC-USD", ⟨some 11, some 22⟩)] "BTC-USD"
    ⟨some 1704067200123, 456⟩ [(Side.sell, some 50000, some 0)]
    ⟨some 1700000000000, none⟩ 1704067200123 rfl (by decide)

/-- One map call preserves the cache invariant that no stored timestamp
has a negative epoch value: the snapshot branch never writes the cache,
the suppressed and cache-hit update branches leave it unchanged, and the
storing branch only runs when the source check valueOf() < 0 is false. -/
theorem cacheNeverNegative_map (cache : SymbolTimestampMap)
    (message : CoinbaseL2Message) (localTimestamp : DateObj)
    (h : cacheNeverNegative cache) :
    cacheNeverNegative (CoinbaseBookChangMapper.map cache message localTimestamp).2 := by
  cases message with
  | snapshot product_id bids asks time =>
    simpa [CoinbaseBookChangMapper.map] using h
  | l2update product_id time changes =>
    by_cases hlt : valueOfLtZero (newDate time) = true
    · cases hget : mapGet cache product_id with
      | none => simpa [CoinbaseBookChangMapper.map, hlt, hget] using h
      | some prev => simpa [CoinbaseBookChangMapper.map, hlt, hget] using h
    · intro k d hd
      have hfalse : valueOfLtZero (newDate time) = false := by
        simpa using hlt
      simp [CoinbaseBookChangMapper.map, hfalse, mapGet_mapSet] at hd
      by_cases hk : product_id = k
      · simp [hk] at hd
        have : valueOfLtZero (setμs (newDate time) (parseμs time)) = valueOfLtZero (newDate time) := by
          simp [valueOfLtZero, setμs, newDate]
        rw [← hd]
        rw [this]
        exact hfalse
      · simp [hk] at hd
        exact h k d hd

/-- The invariant extends to any run of the mapper over a message
sequence. -/
theorem cacheNeverNegative_runBookChange (cache : SymbolTimestampMap)
    (inputs : List (CoinbaseL2Message × DateObj))
    (h : cacheNeverNegative cache) :
    cacheNeverNegative (runBookChange cache inputs) := by
  induction inputs generalizing cache with
  | nil => simpa [runBookChange] using h
  | cons hd tl ih =>
    obtain ⟨message, localTimestamp⟩ := hd
    exact ih _ (cacheNeverNegative_map cache message localTimestamp h)

/-- C4 as stated is false on the code: a time string that does not parse
gives a Date whose valueOf is NaN, the source check valueOf() < 0 is
false on NaN, and the timestamp is stored; starting the mapper on an
incremental update with an unparsable time string therefore reaches a
cache holding a timestamp whose valueOf is NaN, which is not
non-negative. -/
theorem C4_counterexample_nan_stored :
    mapGet (runBookChange []
        [(.l2update "BTC-USD" ⟨none, 0⟩ [(Side.buy, some 50000, some 1)],
          ⟨some 1700000000000, none⟩)]) "BTC-USD"
      = some ⟨none, some 0⟩ ∧
    valueOfNonNeg ⟨none, some 0⟩ = false := by
  constructor
  · rfl
  · rfl

/-- C4 amended: at every point reachable by a sequence of map calls
starting from the empty cache, no stored timestamp has a negative epoch
value — every stored timestamp passed the source check valueOf() < 0
with result false. A timestamp whose valueOf is NaN (unparsable time
string) can be stored, so the stronger claim of a non-negative valueOf
does not hold. -/
theorem C4_cache_never_negative
    (inputs : List (CoinbaseL2Message × DateObj)) (k : String) (d : DateObj)
    (hd : mapGet (runBookChange [] inputs) k = some d) :
    valueOfLtZero d = false := by
  have hbase : cacheNeverNegative ([] : SymbolTimestampMap) := by
    intro k d hd
    simp [mapGet] at hd
  exact cacheNeverNegative_runBookChange [] inputs hbase k d hd

/-- Witness for the amended C4 at a concrete run storing one valid
timestamp. -/
theorem C4_witness :
    valueOfLtZero ⟨some 1704067200123, some 456⟩ = false :=
  C4_cache_never_negative
    [(.l2update "BTC-USD" ⟨some 1704067200123, 456⟩ [(Side.buy, some 50000, some 1)],
      ⟨some 1700000000000, none⟩)]
    "BTC-USD" ⟨some 1704067200123, some 456⟩ (by decide)

/-- C5: for every matched-trade message, map yields exactly one Trade
whose side is the logical negation of the input side tag: sell becomes
buy and buy becomes sell. -/
theorem C5_trade_side_inverted (message : CoinbaseTrade) (localTimestamp : DateObj) :
    (coinbaseTradesMapper.map message localTimestamp).map Trade.side
      = [match message.side with
         | Side.sell => Side.buy
         | Side.buy => Side.sell] := by
  cases h : message.side <;> simp [coinbaseTradesMapper.map, h]

/-- Helper: the source filter accepts exactly the levels whose amount is
neither NaN nor negative. -/
theorem validAmountsOnly_eq (level : BookPriceLevel) :
    validAmountsOnly level = (!jsIsNaN level.amount && !jsNumLtZero level.amount) := by
  cases hn : jsIsNaN level.amount <;> cases hl : jsNumLtZero level.amount <;>
    simp [validAmountsOnly, hn, hl]

/-- C6: every snapshot message yields exactly one BookChange whose bids
and asks are the per-side mapped levels filtered by validAmountsOnly:
every surviving level has an amount that is neither NaN nor negative,
every input level whose parsed amount is NaN or negative is absent from
the output side it came from, the two sides are filtered independently
(each output side is a function of its own input side alone), and each
output side is a sublist of its mapped input side, so the relative order
of surviving levels is preserved. -/
theorem C6_snapshot_filters_invalid_amounts
    (cache : SymbolTimestampMap) (product_id : String)
    (bids asks : List CoinbaseSnapshotBookLevel) (time : Option TimeStr)
    (localTimestamp : DateObj) :
    (CoinbaseBookChangMapper.map cache (.snapshot product_id bids asks time) localTimestamp).1.map
        BookChange.bids
      = [(bids.map mapSnapshotBookLevel).filter validAmountsOnly] ∧
    (CoinbaseBookChangMapper.map cache (.snapshot product_id bids asks time) localTimestamp).1.map
        BookChange.asks
      = [(asks.map mapSnapshotBookLevel).filter validAmountsOnly] ∧
    ((bids.map mapSnapshotBookLevel).filter validAmountsOnly).all
        (fun l => !jsIsNaN l.amount && !jsNumLtZero l.amount) = true ∧
    ((asks.map mapSnapshotBookLevel).filter validAmountsOnly).all
        (fun l => !jsIsNaN l.amount && !jsNumLtZero l.amount) = true ∧
    bids.all (fun lvl => validAmountsOnly (mapSnapshotBookLevel lvl)
        || !(decide (mapSnapshotBookLevel lvl
              ∈ (bids.map mapSnapshotBookLevel).filter validAmountsOnly))) = true ∧
    asks.all (fun lvl => validAmountsOnly (mapSnapshotBookLevel lvl)
        || !(decide (mapSnapshotBookLevel lvl
              ∈ (asks.map mapSnapshotBookLevel).filter validAmountsOnly))) = true ∧
    ((bids.map mapSnapshotBookLevel).filter validAmountsOnly).Sublist
        (bids.map mapSnapshotBookLevel) ∧
    ((asks.map mapSnapshotBookLevel).filter validAmountsOnly).Sublist
        (asks.map mapSnapshotBookLevel) := by
  refine ⟨by simp [CoinbaseBookChangMapper.map], by simp [CoinbaseBookChangMapper.map],
    ?_, ?_, ?_, ?_, List.filter_sublist _, List.filter_sublist _⟩
  · simp only [List.all_eq_true]
    intro l hl
    have := (List.mem_filter.mp hl).2
    rwa [validAmountsOnly_eq] at this
  · simp only [List.all_eq_true]
    intro l hl
    have := (List.mem_filter.mp hl).2
    rwa [validAmountsOnly_eq] at this
  · simp only [List.all_eq_true]
    intro lvl hlvl
    by_cases hva : validAmountsOnly (mapSnapshotBookLevel lvl) = true
    · simp [hva]
    · simp only [Bool.or_eq_true, Bool.not_eq_true', decide_eq_false_iff_not]
      right
      intro hmem
      exact hva (List.mem_filter.mp hmem).2
  · simp only [List.all_eq_true]
    intro lvl hlvl
    by_cases hva : validAmountsOnly (mapSnapshotBookLevel lvl) = true
    · simp [hva]
    · simp only [Bool.or_eq_true, Bool.not_eq_true', decide_eq_false_iff_not]
      right
      intro hmem
      exact hva (List.mem_filter.mp hmem).2

/-- C7: whenever an incremental book-update message yields an event, the
event's bids are exactly the change triples tagged buy and its asks
exactly those tagged sell, each mapped to its price-amount pair with
relative order preserved and with no side inversion; no amount filtering
is applied, so every buy-tagged change (and every sell-tagged change)
appears in the corresponding output side unchanged, amounts of NaN,
negative or exactly zero included. -/
theorem C7_l2update_partitions_changes_without_filtering
    (cache : SymbolTimestampMap) (product_id : String) (time : TimeStr)
    (changes : List CoinbaseUpdateBookLevel) (localTimestamp : DateObj)
    (e : BookChange)
    (he : (CoinbaseBookChangMapper.map cache (.l2update product_id time changes) localTimestamp).1
        = [e]) :
    e.bids = (changes.filter (fun c => c.1 == Side.buy)).map mapUpdateBookLevel ∧
    e.asks = (changes.filter (fun c => c.1 == Side.sell)).map mapUpdateBookLevel ∧
    changes.all (fun c => !(c.1 == Side.buy)
        || decide (mapUpdateBookLevel c ∈ e.bids)) = true ∧
    changes.all (fun c => !(c.1 == Side.sell)
        || decide (mapUpdateBookLevel c ∈ e.asks)) = true := by
  have hba : e.bids = (changes.filter (fun c => c.1 == Side.buy)).map mapUpdateBookLevel ∧
      e.asks = (changes.filter (fun c => c.1 == Side.sell)).map mapUpdateBookLevel := by
    by_cases hlt : valueOfLtZero (newDate time) = true
    · cases hget : mapGet cache product_id with
      | none =>
        simp [CoinbaseBookChangMapper.map, hlt, hget] at he
      | some prev =>
        simp [CoinbaseBookChangMapper.map, hlt, hget] at he
        subst he
        exact ⟨rfl, rfl⟩
    · have hfalse : valueOfLtZero (newDate time) = false := by simpa using hlt
      simp [CoinbaseBookChangMapper.map, hfalse] at he
      subst he
      exact ⟨rfl, rfl⟩
  refine ⟨hba.1, hba.2, ?_, ?_⟩
  · simp only [List.all_eq_true]
    intro c hc
    by_cases hside : (c.1 == Side.buy) = true
    · have : mapUpdateBookLevel c ∈ e.bids := by
        rw [hba.1]
        exact List.mem_map_of_mem _ (List.mem_filter.mpr ⟨hc, hside⟩)
      simp [this]
    · simp [hside]
  · simp only [List.all_eq_true]
    intro c hc
    by_cases hside : (c.1 == Side.sell) = true
    · have : mapUpdateBookLevel c ∈ e.asks := by
        rw [hba.2]
        exact List.mem_map_of_mem _ (List.mem_filter.mpr ⟨hc, hside⟩)
      simp [this]
    · simp [hside]

/-- Witness for C7 at a concrete update carrying a zero amount, a NaN
amount and a negative amount, all of which pass through. -/
theorem C7_witness :
    ({ symbol := "BTC-USD", exchange := "coinbase", isSnapshot := false,
       bids := [⟨some 50000, some 0⟩, ⟨some 49999, none⟩],
       asks := [⟨some 50001, some (-1)⟩, ⟨some 50002, some (3 / 2 : ℚ)⟩],
       timestamp := ⟨some 10, some 123⟩,
       localTimestamp := ⟨some 1700000000000, none⟩ } : BookChange).bids
      = (([(Side.buy, some 50000, some 0), (Side.buy, some 49999, none),
           (Side.sell, some 50001, some (-1)),
           (Side.sell, some 50002, some (3 / 2 : ℚ))] :
            List CoinbaseUpdateBookLevel).filter
          (fun c => c.1 == Side.buy)).map mapUpdateBookLevel ∧
    ({ symbol := "BTC-USD", exchange := "coinbase", isSnapshot := false,
       bids := [⟨some 50000, some 0⟩, ⟨some 49999, none⟩],
       asks := [⟨some 50001, some (-1)⟩, ⟨some 50002, some (3 / 2 : ℚ)⟩],
       timestamp := ⟨some 10, some 123⟩,
       localTimestamp := ⟨some 1700000000000, none⟩ } : BookChange).asks
      = (([(Side.buy, some 50000, some 0), (Side.buy, some 49999, none),
           (Side.sell, some 50001, some (-1)),
           (Side.sell, some 50002, some (3 / 2 : ℚ))] :
            List CoinbaseUpdateBookLevel).filter
          (fun c => c.1 == Side.sell)).map mapUpdateBookLevel ∧
    ([(Side.buy, some 50000, some 0), (Side.buy, some 49999, none),
      (Side.sell, some 50001, some (-1)),
      (Side.sell, some 50002, some (3 / 2 : ℚ))] :
        List CoinbaseUpdateBookLevel).all
        (fun c => !(c.1 == Side.buy)
          || decide (mapUpdateBookLevel c ∈
              ({ symbol := "BTC-USD", exchange := "coinbase", isSnapshot := false,
                 bids := [⟨some 50000, some 0⟩, ⟨some 49999, none⟩],
                 asks := [⟨some 50001, some (-1)⟩, ⟨some 50002, some (3 / 2 : ℚ)⟩],
                 timestamp := ⟨some 10, some 123⟩,
                 localTimestamp := ⟨some 1700000000000, none⟩ } : BookChange).bids)) = true ∧
    ([(Side.buy, some 50000, some 0), (Side.buy, some 49999, none),
      (Side.sell, some 50001, some (-1)),
      (Side.sell, some 50002, some (3 / 2 : ℚ))] :
        List CoinbaseUpdateBookLevel).all
        (fun c => !(c.1 == Side.sell)
          || decide (mapUpdateBookLevel c ∈
              ({ symbol := "BTC-USD", exchange := "coinbase", isSnapshot := false,
                 bids := [⟨some 50000, some 0⟩, ⟨some 49999, none⟩],
                 asks := [⟨some 50001, some (-1)⟩, ⟨some 50002, some (3 / 2 : ℚ)⟩],
                 timestamp := ⟨some 10, some 123⟩,
                 localTimestamp := ⟨some 1700000000000, none⟩ } : BookChange).asks)) = true :=
  C7_l2update_partitions_changes_without_filtering [] "BTC-USD" ⟨some 10, 123⟩
    [(Side.buy, some 50000, some 0), (Side.buy, some 49999, none),
     (Side.sell, some 50001, some (-1)), (Side.sell, some 50002, some (3 / 2 : ℚ))]
    ⟨some 1700000000000, none⟩
    { symbol := "BTC-USD", exchange := "coinbase", isSnapshot := false,
      bids := [⟨some 50000, some 0⟩, ⟨some 49999, none⟩],
      asks := [⟨some 50001, some (-1)⟩, ⟨some 50002, some (3 / 2 : ℚ)⟩],
      timestamp := ⟨some 10, some 123⟩,
      localTimestamp := ⟨some 1700000000000, none⟩ }
    (by rfl)

/-- C8: for every ticker message, map yields exactly one BookTicker
whose timestamp follows the spec policy specTickerTimestamp: it is
localTimestamp with no microsecond remainder attached exactly when the
time field is absent or its parsed epoch value is negative, and
otherwise it is the parsed exchange time, NaN included, with the
microsecond remainder from the time string attached. -/
theorem C8_ticker_timestamp_policy (message : CoinbaseTicker) (localTimestamp : DateObj) :
    (coinbaseBookTickerMapper.map message localTimestamp).map BookTicker.timestamp
      = [specTickerTimestamp message.time localTimestamp] := by
  cases htime : message.time with
  | none => simp [coinbaseBookTickerMapper.map, specTickerTimestamp, htime]
  | some t =>
    cases hms : t.epochMs with
    | none =>
      simp [coinbaseBookTickerMapper.map, specTickerTimestamp, htime, hms,
        valueOfLtZero, newDate, setμs, parseμs]
    | some v =>
      by_cases hv : v < 0
      · simp [coinbaseBookTickerMapper.map, specTickerTimestamp, htime, hms,
          valueOfLtZero, newDate, hv]
      · simp [coinbaseBookTickerMapper.map, specTickerTimestamp, htime, hms,
          valueOfLtZero, newDate, setμs, parseμs, hv]

/-- Helper: ASCII uppercase of a character already produced by
upperChar over the lowercase range is unchanged. -/
theorem upperChar_ofNat_sub (n : ℕ) (h1 : 97 ≤ n) (h2 : n ≤ 122) :
    upperChar (Char.ofNat (n - 32)) = Char.ofNat (n - 32) := by
  interval_cases n <;> decide

/-- Helper: the character uppercase map is idempotent. -/
theorem upperChar_idem (c : Char) : upperChar (upperChar c) = upperChar c := by
  by_cases h : 97 ≤ c.toNat ∧ c.toNat ≤ 122
  · have hc : upperChar c = Char.ofNat (c.toNat - 32) := by
      rw [upperChar, if_pos h]
    rw [hc]
    exact upperChar_ofNat_sub c.toNat h.1 h.2
  · have hc : upperChar c = c := by
      rw [upperChar, if_neg h]
    rw [hc]
    exact hc

/-- Helper: the string uppercase map is idempotent. -/
theorem upperCaseString_idem (s : String) :
    upperCaseString (upperCaseString s) = upperCaseString s := by
  simp [upperCaseString, List.map_map, Function.comp_def, upperChar_idem]

/-- Helper: the symbol-list normalization is idempotent. -/
theorem upperCaseSymbols_idem (symbols : Option (List String)) :
    upperCaseSymbols (upperCaseSymbols symbols) = upperCaseSymbols symbols := by
  cases symbols with
  | none => rfl
  | some l => simp [upperCaseSymbols, List.map_map, Function.comp_def, upperCaseString_idem]

/-- C9: for every optional symbol list, calling getFilters of each of
the three mappers twice with the same argument gives identical
descriptor sequences, and the uppercase symbol normalization is
idempotent, so applying it to an already-normalized list leaves the list
unchanged. -/
theorem C9_getFilters_deterministic_and_normalization_idempotent
    (symbols : Option (List String)) :
    coinbaseTradesMapper.getFilters symbols = coinbaseTradesMapper.getFilters symbols ∧
    CoinbaseBookChangMapper.getFilters symbols = CoinbaseBookChangMapper.getFilters symbols ∧
    coinbaseBookTickerMapper.getFilters symbols = coinbaseBookTickerMapper.getFilters symbols ∧
    upperCaseSymbols (upperCaseSymbols symbols) = upperCaseSymbols symbols ∧
    coinbaseTradesMapper.getFilters (upperCaseSymbols symbols)
      = [{ channel := "match", symbols := upperCaseSymbols symbols }] :=
  ⟨rfl, rfl, rfl, upperCaseSymbols_idem symbols, by
    simp [coinbaseTradesMapper.getFilters, upperCaseSymbols_idem]⟩

/-- C10: the trade mapper applies no timestamp validity fallback: for
every matched-trade message, whatever the parse of its time field
(invalid NaN and negative epoch values included), map yields exactly one
Trade whose timestamp is the direct Date parse of the time field with
the microsecond remainder attached; the timestamp never depends on
localTimestamp and the event is never suppressed. -/
theorem C10_trade_timestamp_never_falls_back
    (message : CoinbaseTrade) (localTimestamp : DateObj) :
    (coinbaseTradesMapper.map message localTimestamp).map Trade.timestamp
      = [{ epochMs := message.time.epochMs, μs := some message.time.μs }] := by
  simp [coinbaseTradesMapper.map, setμs, newDate, parseμs]
